import Mathlib

/-!
# Verification of the pvr_sync fence engine (pvr_sync.c)

A shallow embedding of the core data structures and operations of the
`pvr_sync.c` Android sync driver: sync primitives and their pool, timelines,
sync data, the alloc/create/release fence lifecycle, and the query/merge
engine (update and check modes).

Machine integers (`u32`, `s32`) are modelled as `Nat`/`Int` with explicit
`% 2^32` wrapping where the C code can overflow.  External collaborators
(services sync-prim allocation, the base Android sync framework, file
descriptors, copy-to-user) are abstracted: an fd lookup becomes a direct
argument, firmware addresses of freshly allocated prims are modelled as a
fresh-address counter, and in-kernel allocation failure (OOM) is not
modelled (every `kmalloc`/`SyncPrimAlloc` is assumed to succeed, as the
claims under study only concern the success behaviour).
-/

/-- 2^32, the wrap modulus of the driver's `u32` counters. -/
def U32MOD : Nat := 4294967296

/-- `SYNC_MAX_POOL_SIZE` from pvr_sync.c. -/
def SYNC_MAX_POOL_SIZE : Int := 10

/-- Sync prim type tags (the anonymous C enum in pvr_sync.c). -/
def SYNC_TL_TYPE : Nat := 0

def SYNC_PT_FENCE_TYPE : Nat := 1

def SYNC_PT_CLEANUP_TYPE : Nat := 2

def SYNC_PT_FOREIGN_FENCE_TYPE : Nat := 3

def SYNC_PT_FOREIGN_CLEANUP_TYPE : Nat := 4

/-- `enum PVRSRV_ERROR` (only the values this driver produces). -/
inductive PVRSRV_ERROR where
  | PVRSRV_OK
  | PVRSRV_ERROR_HANDLE_NOT_FOUND
  | PVRSRV_ERROR_RESOURCE_UNAVAILABLE
  | PVRSRV_ERROR_OUT_OF_MEMORY
  deriving DecidableEq, Repr

open PVRSRV_ERROR

/-- `struct pvr_sync_native_sync_prim`: the services client sync prim wrapper.
`current` models `*client_sync->pui32LinAddr` (the value the hardware
advances); `vaddr` is the firmware address; `next_value` the next queued
target value; `id` the unique debug id; `type`/`class_name` the debug tags. -/
structure SyncPrim where
  id : Nat
  vaddr : Nat
  current : Nat
  next_value : Nat
  type : Nat
  class_name : String
  deriving DecidableEq, Repr

/-- `set_sync_value`. -/
def set_sync_value (sync : SyncPrim) (value : Nat) : SyncPrim :=
  { sync with current := value }

/-- `get_sync_value`. -/
def get_sync_value (sync : SyncPrim) : Nat :=
  sync.current

/-- `complete_sync`: force the prim's current value to its target. -/
def complete_sync (sync : SyncPrim) : SyncPrim :=
  { sync with current := sync.next_value }

/-- `is_sync_met`: the prim's current value has reached its target. -/
def is_sync_met (sync : SyncPrim) : Bool :=
  sync.current == sync.next_value

/-- `struct pvr_sync_kernel_pair`: fence prim plus optional cleanup prim. -/
structure KernelPair where
  fence_sync : SyncPrim
  cleanup_sync : Option SyncPrim
  deriving DecidableEq, Repr

/-- `struct pvr_sync_data`: shared per-point data.  `kernel = none` models a
NULL kernel pointer (an idle point with no backing prims). -/
structure SyncData where
  kernel : Option KernelPair
  timeline_fence_value : Nat
  timeline_update_value : Nat
  refcount : Nat
  deriving DecidableEq, Repr

/-- `pvr_sync_has_signaled` on the point's shared sync data (the `sync_pt`
wrapper only carries the `sync_data` pointer used here). -/
def pvr_sync_has_signaled (sync_data : SyncData) : Bool :=
  match sync_data.kernel with
  | none => true
  | some kernel => is_sync_met kernel.fence_sync

/-- Reinterpret a `u32` bit pattern as a signed 32-bit integer (the `(s32)`
casts in `pvr_sync_compare`). -/
def s32ofU32 (x : Nat) : Int :=
  if x < 2147483648 then (x : Int) else (x : Int) - (U32MOD : Int)

/-- Wrap an integer to the signed 32-bit range, modelling the wrapping
semantics of the kernel's 32-bit signed subtraction. -/
def wrap32 (z : Int) : Int :=
  (z + 2147483648) % (U32MOD : Int) - 2147483648

/-- `pvr_sync_compare` applied to the two points' `timeline_update_value`s. -/
def pvr_sync_compare (a b : SyncData) : Int :=
  let a1 := a.timeline_update_value
  let b1 := b.timeline_update_value
  if a1 == b1 then 0
  else if wrap32 (s32ofU32 a1 - s32ofU32 b1) < 0 then -1 else 1

/-- The spec's wraparound-safe signed-difference key: the difference
`a - b` taken mod 2^32 and read as a signed 32-bit quantity. -/
def wrapDiffSpec (a b : Nat) : Int :=
  s32ofU32 ((a + (U32MOD - b % U32MOD)) % U32MOD)

theorem wrap32_eq_wrapDiffSpec (a b : Nat) :
    wrap32 (s32ofU32 a - s32ofU32 b) = wrapDiffSpec a b := by
  unfold wrap32 wrapDiffSpec s32ofU32 U32MOD
  split_ifs <;> omega

theorem wrapDiffSpec_eq_zero_iff (a b : Nat) (ha : a < U32MOD) (hb : b < U32MOD) :
    wrapDiffSpec a b = 0 ↔ a = b := by
  unfold wrapDiffSpec s32ofU32 U32MOD at *
  split_ifs <;> omega

/-- C3: `pvr_sync_has_signaled` returns true iff the point has no backing
kernel pair, or its fence prim's current value equals the prim's
`next_value` target; consequently it is false for a point whose backing
fence prim has not reached its target, and true once that prim is completed
(`complete_sync`) to its target. -/
theorem C3_has_signaled_iff :
    (∀ sync_data : SyncData,
      pvr_sync_has_signaled sync_data = true ↔
        (sync_data.kernel = none ∨
         ∃ kernel, sync_data.kernel = some kernel ∧
           kernel.fence_sync.current = kernel.fence_sync.next_value)) ∧
    (∀ (sync_data : SyncData) (kernel : KernelPair),
      sync_data.kernel = some kernel →
      kernel.fence_sync.current ≠ kernel.fence_sync.next_value →
      pvr_sync_has_signaled sync_data = false) ∧
    (∀ (sync_data : SyncData) (kernel : KernelPair),
      sync_data.kernel = some kernel →
      pvr_sync_has_signaled
        { sync_data with
          kernel := some { kernel with
            fence_sync := complete_sync kernel.fence_sync } } = true) := by
  refine ⟨fun sync_data => ?_, fun sync_data kernel hk hne => ?_, fun sync_data kernel hk => ?_⟩
  · cases h : sync_data.kernel with
    | none => simp [pvr_sync_has_signaled, h]
    | some kernel =>
      simp only [pvr_sync_has_signaled, h, is_sync_met, beq_iff_eq]
      constructor
      · intro hc
        exact Or.inr ⟨kernel, rfl, hc⟩
      · rintro (hc | ⟨k, hk, hc⟩)
        · exact absurd hc (by simp)
        · cases hk; exact hc
  · simp [pvr_sync_has_signaled, hk, is_sync_met, hne]
  · simp [pvr_sync_has_signaled, is_sync_met, complete_sync]

/-- C4: `pvr_sync_compare` returns 0 exactly when the two 32-bit
`timeline_update_value`s are equal, and otherwise returns -1 or 1 according
to the sign of the wraparound-safe signed difference of the two values;
in particular a point with value 0xFFFFFFF0 orders before one with value
0x00000010. -/
theorem C4_compare_wraparound (a b : SyncData)
    (ha : a.timeline_update_value < U32MOD)
    (hb : b.timeline_update_value < U32MOD) :
    (pvr_sync_compare a b = 0 ↔
       a.timeline_update_value = b.timeline_update_value) ∧
    (a.timeline_update_value ≠ b.timeline_update_value →
       pvr_sync_compare a b =
         if wrapDiffSpec a.timeline_update_value b.timeline_update_value < 0
         then -1 else 1) ∧
    (a.timeline_update_value = 4294967280 → b.timeline_update_value = 16 →
       pvr_sync_compare a b = -1 ∧ pvr_sync_compare b a = 1) := by
  have hkey := wrap32_eq_wrapDiffSpec a.timeline_update_value
    b.timeline_update_value
  refine ⟨?_, fun hne => ?_, fun hav hbv => ?_⟩
  · unfold pvr_sync_compare
    by_cases h : a.timeline_update_value = b.timeline_update_value
    · simp [h]
    · simp only [beq_iff_eq, h, if_false]
      split_ifs <;> simp [h]
  · unfold pvr_sync_compare
    simp only [beq_iff_eq, hne, if_false, hkey]
  · unfold pvr_sync_compare
    rw [hav, hbv]
    norm_num [wrap32, s32ofU32, U32MOD]

/-- Witness for C4 at concrete points. -/
theorem C4_compare_wraparound_witness :
    pvr_sync_compare
      { kernel := none, timeline_fence_value := 0,
        timeline_update_value := 4294967280, refcount := 1 }
      { kernel := none, timeline_fence_value := 0,
        timeline_update_value := 16, refcount := 1 } = -1 :=
  ((C4_compare_wraparound
      { kernel := none, timeline_fence_value := 0,
        timeline_update_value := 4294967280, refcount := 1 }
      { kernel := none, timeline_fence_value := 0,
        timeline_update_value := 16, refcount := 1 }
      (by norm_num [U32MOD]) (by norm_num [U32MOD])).2.2 rfl rfl).1

/-! ## Sync-prim pool (`sync_pool_get` / `sync_pool_put`)

The pool state bundles the static globals of pvr_sync.c: the free and
active lists, `sync_pool_size` (an `s32` counting the free list),
the created/reused counters, and the global `pvr_sync_data.sync_id`
atomic counter.  The atomic counter is a `u32` that wraps; we track the
unwrapped number of ids handed out and wrap (`% 2^32`) when an id is
assigned, which produces exactly the same id values as the C code.
`SyncPrimGetFirmwareAddr` is external; fresh prims get a fresh address
from the `next_vaddr` counter. -/

structure Pool where
  free_list : List SyncPrim
  active_list : List SyncPrim
  pool_size : Int
  created : Nat
  reused : Nat
  sync_id : Nat
  next_vaddr : Nat
  deriving DecidableEq, Repr

def emptyPool : Pool :=
  { free_list := [], active_list := [], pool_size := 0,
    created := 0, reused := 0, sync_id := 0, next_vaddr := 0 }

/-- `sync_pool_get`: reuse the first free-list entry if there is one
(the free list is filled at its head by `sync_pool_put`, so this is LIFO),
else allocate a fresh prim; in both cases assign a fresh id from the
global counter, tag with the requested type and class name, and reset
the current value and `next_value` to 0.  Allocation failure (OOM) is
external and not modelled. -/
def sync_pool_get (p : Pool) (class_name : String) (ty : Nat) :
    SyncPrim × Pool :=
  match p.free_list with
  | [] =>
    let sync : SyncPrim :=
      { id := (p.sync_id + 1) % U32MOD, vaddr := p.next_vaddr,
        current := 0, next_value := 0, type := ty, class_name := class_name }
    (sync,
     { p with active_list := p.active_list ++ [sync],
              created := p.created + 1,
              sync_id := p.sync_id + 1,
              next_vaddr := p.next_vaddr + 1 })
  | sync :: rest =>
    let sync' : SyncPrim :=
      { sync with id := (p.sync_id + 1) % U32MOD,
                  current := 0, next_value := 0,
                  type := ty, class_name := class_name }
    (sync',
     { p with free_list := rest,
              active_list := p.active_list ++ [sync'],
              pool_size := p.pool_size - 1,
              reused := p.reused + 1,
              sync_id := p.sync_id + 1 })

/-- `sync_pool_put` on the `i`-th active-list prim (the C function takes
the prim by pointer; list position stands in for pointer identity).
Below capacity, the prim's value is forced to the unmet sentinel
0xffffffff and it moves to the head of the free list; at capacity it is
poisoned (0xdeadbeef) and physically freed, i.e. dropped from the model. -/
def sync_pool_put (p : Pool) (i : Nat) : Pool :=
  match p.active_list[i]? with
  | none => p
  | some sync =>
    if p.pool_size < SYNC_MAX_POOL_SIZE then
      { p with active_list := p.active_list.eraseIdx i,
               free_list := set_sync_value sync 4294967295 :: p.free_list,
               pool_size := p.pool_size + 1 }
    else
      { p with active_list := p.active_list.eraseIdx i }

/-- A pool history: each op is an acquire (`get`) or a release (`put`)
of the `i`-th currently active prim. -/
inductive PoolOp where
  | get (class_name : String) (ty : Nat)
  | put (i : Nat)
  deriving DecidableEq, Repr

def pool_step (p : Pool) : PoolOp → Pool
  | .get class_name ty => (sync_pool_get p class_name ty).2
  | .put i => sync_pool_put p i

def pool_run (p : Pool) : List PoolOp → Pool
  | [] => p
  | op :: ops => pool_run (pool_step p op) ops

def countGets : List PoolOp → Nat
  | [] => 0
  | .get _ _ :: ops => countGets ops + 1
  | .put _ :: ops => countGets ops

/-- The invariant carrying id uniqueness: the ids of the active prims are
the image, under wrapping, of a strictly increasing list of unwrapped
id-counter values bounded by the current counter. -/
def PoolIdInv (p : Pool) : Prop :=
  ∃ J : List Nat,
    p.active_list.map SyncPrim.id = J.map (fun j => j % U32MOD) ∧
    J.Pairwise (· < ·) ∧
    ∀ j ∈ J, 1 ≤ j ∧ j ≤ p.sync_id

theorem poolIdInv_empty : PoolIdInv emptyPool :=
  ⟨[], rfl, List.Pairwise.nil, by simp⟩

theorem poolIdInv_get (p : Pool) (c : String) (t : Nat) (h : PoolIdInv p) :
    PoolIdInv (sync_pool_get p c t).2 := by
  obtain ⟨J, hmap, hpw, hbd⟩ := h
  refine ⟨J ++ [p.sync_id + 1], ?_, ?_, ?_⟩
  · unfold sync_pool_get
    cases hf : p.free_list with
    | nil => simp [hmap]
    | cons s rest => simp [hmap]
  · rw [List.pairwise_append]
    refine ⟨hpw, List.pairwise_singleton _ _, ?_⟩
    intro j hj j' hj'
    rw [List.mem_singleton] at hj'
    subst hj'
    exact Nat.lt_succ_of_le (hbd j hj).2
  · intro j hj
    rw [List.mem_append, List.mem_singleton] at hj
    unfold sync_pool_get
    rcases hj with hj | hj
    · have := hbd j hj
      cases hf : p.free_list <;> simp <;> omega
    · subst hj
      cases hf : p.free_list <;> simp

theorem list_map_eraseIdx {α β : Type} (f : α → β) :
    ∀ (l : List α) (i : Nat), (l.eraseIdx i).map f = (l.map f).eraseIdx i
  | [], _ => by simp
  | _ :: _, 0 => by simp
  | a :: l, (i + 1) => by
      simp [List.eraseIdx_cons_succ, list_map_eraseIdx f l i]

theorem poolIdInv_put (p : Pool) (i : Nat) (h : PoolIdInv p) :
    PoolIdInv (sync_pool_put p i) := by
  obtain ⟨J, hmap, hpw, hbd⟩ := h
  have herase : (p.active_list.eraseIdx i).map SyncPrim.id =
      (J.eraseIdx i).map (fun j => j % U32MOD) := by
    rw [list_map_eraseIdx, hmap, ← list_map_eraseIdx]
  have hbd' : ∀ j ∈ J.eraseIdx i, 1 ≤ j ∧ j ≤ p.sync_id :=
    fun j hj => hbd j (List.mem_of_mem_eraseIdx hj)
  unfold sync_pool_put
  cases hg : p.active_list[i]? with
  | none => exact ⟨J, hmap, hpw, hbd⟩
  | some sync =>
    split_ifs with hcap
    · exact ⟨J.eraseIdx i, herase, List.Pairwise.eraseIdx i hpw, hbd'⟩
    · exact ⟨J.eraseIdx i, herase, List.Pairwise.eraseIdx i hpw, hbd'⟩

theorem poolIdInv_step (p : Pool) (op : PoolOp) (h : PoolIdInv p) :
    PoolIdInv (pool_step p op) := by
  cases op with
  | get c t => exact poolIdInv_get p c t h
  | put i => exact poolIdInv_put p i h

theorem poolIdInv_run (ops : List PoolOp) :
    ∀ p : Pool, PoolIdInv p → PoolIdInv (pool_run p ops) := by
  induction ops with
  | nil => exact fun p h => h
  | cons op ops ih =>
    intro p h
    exact ih (pool_step p op) (poolIdInv_step p op h)

theorem pool_step_sync_id_get (p : Pool) (c : String) (t : Nat) :
    (pool_step p (.get c t)).sync_id = p.sync_id + 1 := by
  show (sync_pool_get p c t).2.sync_id = p.sync_id + 1
  unfold sync_pool_get
  cases p.free_list <;> rfl

theorem pool_step_sync_id_put (p : Pool) (i : Nat) :
    (pool_step p (.put i)).sync_id = p.sync_id := by
  show (sync_pool_put p i).sync_id = p.sync_id
  unfold sync_pool_put
  cases p.active_list[i]? with
  | none => rfl
  | some sync => split_ifs <;> rfl

theorem pool_run_sync_id (ops : List PoolOp) :
    ∀ p : Pool, (pool_run p ops).sync_id = p.sync_id + countGets ops := by
  induction ops with
  | nil => intro p; rfl
  | cons op ops ih =>
    intro p
    show (pool_run (pool_step p op) ops).sync_id = _
    rw [ih]
    cases op with
    | get c t =>
      rw [pool_step_sync_id_get]
      show p.sync_id + 1 + countGets ops = p.sync_id + (countGets ops + 1)
      omega
    | put i =>
      rw [pool_step_sync_id_put]
      rfl

/-- C8: pool behaviour.  (a) starting from the empty pool, after any
sequence of at most 2^32 acquires interleaved with releases, the active
prims carry pairwise-distinct ids; (b) every acquired prim is returned
with current value 0, `next_value` 0, and the requested type and class;
(c) when the free list is non-empty, acquire reuses its head entry
(LIFO) instead of allocating: the created counter is unchanged, the
reused counter increments, the returned prim is the head reset and
retagged, and the head is removed; (d) a release below capacity pushes
the prim onto the head of the free list with the unmet sentinel value. -/
theorem C8_pool_acquire_release :
    (∀ ops : List PoolOp, countGets ops ≤ U32MOD →
      ((pool_run emptyPool ops).active_list.map SyncPrim.id).Pairwise (· ≠ ·)) ∧
    (∀ (p : Pool) (c : String) (t : Nat),
      (sync_pool_get p c t).1.current = 0 ∧
      (sync_pool_get p c t).1.next_value = 0 ∧
      (sync_pool_get p c t).1.type = t ∧
      (sync_pool_get p c t).1.class_name = c) ∧
    (∀ (p : Pool) (c : String) (t : Nat) (s : SyncPrim) (rest : List SyncPrim),
      p.free_list = s :: rest →
      (sync_pool_get p c t).2.created = p.created ∧
      (sync_pool_get p c t).2.reused = p.reused + 1 ∧
      (sync_pool_get p c t).1 =
        { s with id := (p.sync_id + 1) % U32MOD, current := 0,
                 next_value := 0, type := t, class_name := c } ∧
      (sync_pool_get p c t).2.free_list = rest) ∧
    (∀ (p : Pool) (i : Nat) (sync : SyncPrim),
      p.active_list[i]? = some sync → p.pool_size < SYNC_MAX_POOL_SIZE →
      (sync_pool_put p i).free_list =
        set_sync_value sync 4294967295 :: p.free_list) := by
  refine ⟨fun ops hops => ?_, fun p c t => ?_, fun p c t s rest hf => ?_,
    fun p i sync hg hcap => ?_⟩
  · obtain ⟨J, hmap, hpw, hbd⟩ := poolIdInv_run ops emptyPool poolIdInv_empty
    have hid := pool_run_sync_id ops emptyPool
    rw [hmap, List.pairwise_map]
    refine hpw.imp_of_mem ?_
    intro j j' hj hj' hlt
    have h1 := hbd j hj
    have h2 := hbd j' hj'
    have hde : emptyPool.sync_id = 0 := rfl
    have hJ1 : j ≤ U32MOD := by omega
    have hJ2 : j' ≤ U32MOD := by omega
    show ¬(j % U32MOD = j' % U32MOD)
    unfold U32MOD at *
    omega
  · unfold sync_pool_get
    cases p.free_list <;> simp
  · refine ⟨?_, ?_, ?_, ?_⟩ <;> simp [sync_pool_get, hf]
  · unfold sync_pool_put
    rw [hg]
    simp [hcap]

/-- Witness for C8: a concrete acquire/acquire/release/acquire history has
distinct active ids, a concrete acquire from a pool with a free entry
reuses it, and a concrete release pushes onto the free-list head. -/
theorem C8_pool_acquire_release_witness :
    (((pool_run emptyPool
        [.get "a" 1, .get "b" 1, .put 0, .get "c" 2]).active_list.map
          SyncPrim.id).Pairwise (· ≠ ·)) ∧
    ((sync_pool_get emptyPool "x" 3).1.current = 0 ∧
     (sync_pool_get emptyPool "x" 3).1.next_value = 0 ∧
     (sync_pool_get emptyPool "x" 3).1.type = 3 ∧
     (sync_pool_get emptyPool "x" 3).1.class_name = "x") := by
  constructor
  · refine C8_pool_acquire_release.1
      [.get "a" 1, .get "b" 1, .put 0, .get "c" 2] ?_
    unfold U32MOD
    decide
  · exact C8_pool_acquire_release.2.1 emptyPool "x" 3

/-! ## Timeline, alloc data, and the update-mode query -/

/-- `struct pvr_sync_timeline`: the base `sync_timeline` contributes only
the name; the driver adds the dedicated timeline sync prim and the
fencing-enabled flag. -/
structure Timeline where
  name : String
  timeline_sync : SyncPrim
  fencing_enabled : Bool
  deriving DecidableEq, Repr

/-- `struct pvr_sync_alloc_data` (the `file` backing and the timeline
pointer are abstracted; the timeline is passed explicitly to the
operations that use it).  `sync_data = none` models the NULL pointer left
behind once `pvr_sync_ioctl_create_fence` has consumed the data. -/
structure AllocData where
  sync_data : Option SyncData
  deriving DecidableEq, Repr

/-- `pvr_sync_create_sync_data`: fresh refcount-1 sync data with a
fence-type prim from the pool and no cleanup prim (`kzalloc` zeroes the
timeline fence/update values). -/
def pvr_sync_create_sync_data (tl : Timeline) (p : Pool) :
    SyncData × Pool :=
  let r := sync_pool_get p tl.name SYNC_PT_FENCE_TYPE
  ({ kernel := some { fence_sync := r.1, cleanup_sync := none },
     timeline_fence_value := 0, timeline_update_value := 0,
     refcount := 1 }, r.2)

structure AllocFenceResult where
  timeline : Timeline
  pool : Pool
  alloc_data : AllocData
  bTimelineIdle : Bool
  deriving DecidableEq, Repr

/-- `pvr_sync_ioctl_alloc_fence` (success path; fd plumbing and
copy-to-user abstracted): computes the idle flag, records the timeline
baseline as `timeline_fence_value`, increments the timeline prim's
`next_value` exactly when not idle, and records the resulting
`next_value` as `timeline_update_value`. -/
def pvr_sync_ioctl_alloc_fence (tl : Timeline) (p : Pool) :
    AllocFenceResult :=
  let sdp := pvr_sync_create_sync_data tl p
  let idle := is_sync_met tl.timeline_sync && !tl.fencing_enabled
  let sd1 := { sdp.1 with
    timeline_fence_value := tl.timeline_sync.next_value }
  let ts' := if !idle then
      { tl.timeline_sync with
        next_value := (tl.timeline_sync.next_value + 1) % U32MOD }
    else tl.timeline_sync
  let sd2 := { sd1 with timeline_update_value := ts'.next_value }
  { timeline := { tl with timeline_sync := ts' },
    pool := sdp.2,
    alloc_data := { sync_data := some sd2 },
    bTimelineIdle := idle }

/-- One (address, value) pair written into a caller-supplied UFO buffer,
together with the array index it was written at. -/
structure UfoEntry where
  idx : Nat
  addr : Nat
  value : Nat
  deriving DecidableEq, Repr

/-- The caller-supplied query buffers: capacity, the write log of each
array, and the two in/out `u32` accumulators. -/
structure QueryState where
  max_entries : Nat
  fence_writes : List UfoEntry
  fence_num : Nat
  update_writes : List UfoEntry
  update_num : Nat
  deriving DecidableEq, Repr

/-- Unsigned 32-bit subtraction (the `max_entries - *fence_num` style
capacity checks are done in `u32` arithmetic and wrap). -/
def u32sub (a b : Nat) : Nat :=
  (a % U32MOD + (U32MOD - b % U32MOD)) % U32MOD

/-- `pvr_sync_query_sync_update`: update-mode query for one alloc-fence
fd.  Returns the services error code and the new alloc data (its fence
prim's `next_value` is advanced), timeline (its `fencing_enabled` is
cleared) and query buffers. -/
def pvr_sync_query_sync_update (a : AllocData) (tl : Timeline)
    (q : QueryState) :
    PVRSRV_ERROR × AllocData × Timeline × QueryState :=
  match a.sync_data with
  | none =>
    -- Updates may not be scheduled on alloc syncs that have already
    -- had CREATE called.
    (PVRSRV_ERROR_RESOURCE_UNAVAILABLE, a, tl, q)
  | some sd =>
    match sd.kernel with
    | none =>
      -- The C code dereferences sync_data->kernel unconditionally;
      -- alloc-created sync data always carries a kernel pair
      -- (pvr_sync_create_sync_data), so this case is unreachable.
      (PVRSRV_ERROR_RESOURCE_UNAVAILABLE, a, tl, q)
    | some kernel =>
      -- For update we need space for 1 fence and 2 updates.
      if u32sub q.max_entries q.fence_num < 1 ∨
         u32sub q.max_entries q.update_num < 2 then
        (PVRSRV_OK, a, tl, q)
      else
        let new_next := (kernel.fence_sync.next_value + 1) % U32MOD
        let q1 := { q with
          update_writes := q.update_writes ++
            [UfoEntry.mk q.update_num kernel.fence_sync.vaddr new_next],
          update_num := (q.update_num + 1) % U32MOD }
        let q2 := { q1 with
          fence_writes := q1.fence_writes ++
            [UfoEntry.mk q1.fence_num tl.timeline_sync.vaddr
              sd.timeline_fence_value],
          fence_num := (q1.fence_num + 1) % U32MOD }
        let q3 := { q2 with
          update_writes := q2.update_writes ++
            [UfoEntry.mk q2.update_num tl.timeline_sync.vaddr
              sd.timeline_update_value],
          update_num := (q2.update_num + 1) % U32MOD }
        let fence_sync' : SyncPrim :=
          { kernel.fence_sync with next_value := new_next }
        let kernel' : KernelPair := { kernel with fence_sync := fence_sync' }
        let sd' : SyncData := { sd with kernel := some kernel' }
        (PVRSRV_OK,
         { a with sync_data := some sd' },
         { tl with fencing_enabled := false },
         q3)

theorem u32sub_exact (a b : Nat) (ha : a < U32MOD) (hb : b ≤ a) :
    u32sub a b = a - b := by
  unfold u32sub U32MOD at *
  omega


/-- A concrete fence-type prim, used by witnesses. -/
def primF : SyncPrim :=
  { id := 1, vaddr := 100, current := 0, next_value := 0,
    type := 1, class_name := "f" }

/-- A concrete timeline-type prim (unmet: current 5, target 6). -/
def primTL : SyncPrim :=
  { id := 2, vaddr := 200, current := 5, next_value := 6,
    type := 0, class_name := "t" }

/-- A concrete timeline with fencing enabled. -/
def tlFixture : Timeline :=
  { name := "t", timeline_sync := primTL, fencing_enabled := true }

/-- Concrete sync data backed by `primF`. -/
def sdFixture : SyncData :=
  { kernel := some { fence_sync := primF, cleanup_sync := none },
    timeline_fence_value := 5, timeline_update_value := 6, refcount := 1 }

/-- Concrete empty query buffers with capacity 4. -/
def qFixture : QueryState :=
  { max_entries := 4, fence_writes := [], fence_num := 0,
    update_writes := [], update_num := 0 }

/-- C7 (amended): `pvr_sync_ioctl_alloc_fence` records
`timeline_fence_value` as the timeline prim's `next_value` baseline,
computes the idle flag as (timeline prim met AND `fencing_enabled`
false), increments the timeline prim's `next_value` (mod 2^32) exactly
when not idle, and records `timeline_update_value` as the resulting
`next_value` (the unchanged baseline when idle) — but it leaves
`fencing_enabled` unchanged (the flag is reset by the update-mode query,
not by alloc). -/
theorem C7_alloc_fence_amended (tl : Timeline) (p : Pool) :
    (pvr_sync_ioctl_alloc_fence tl p).bTimelineIdle =
      (is_sync_met tl.timeline_sync && !tl.fencing_enabled) ∧
    ((pvr_sync_ioctl_alloc_fence tl p).alloc_data.sync_data.map
        (fun sd => sd.timeline_fence_value)) =
      some tl.timeline_sync.next_value ∧
    ((pvr_sync_ioctl_alloc_fence tl p).alloc_data.sync_data.map
        (fun sd => sd.timeline_update_value)) =
      some (pvr_sync_ioctl_alloc_fence tl p).timeline.timeline_sync.next_value ∧
    (pvr_sync_ioctl_alloc_fence tl p).timeline.timeline_sync.next_value =
      (if is_sync_met tl.timeline_sync && !tl.fencing_enabled then
        tl.timeline_sync.next_value
       else (tl.timeline_sync.next_value + 1) % U32MOD) ∧
    (pvr_sync_ioctl_alloc_fence tl p).timeline.fencing_enabled =
      tl.fencing_enabled := by
  by_cases hidle : (is_sync_met tl.timeline_sync && !tl.fencing_enabled) = true
  · refine ⟨?_, ?_, ?_, ?_, ?_⟩ <;>
      simp [pvr_sync_ioctl_alloc_fence, pvr_sync_create_sync_data, hidle]
  · rw [Bool.not_eq_true] at hidle
    refine ⟨?_, ?_, ?_, ?_, ?_⟩ <;>
      simp [pvr_sync_ioctl_alloc_fence, pvr_sync_create_sync_data, hidle]

/-- Counterexample to C7 as stated: allocating a fence on a timeline with
`fencing_enabled = true` leaves the flag set — `pvr_sync_ioctl_alloc_fence`
never writes `fencing_enabled`, so alloc does not reset it to false. -/
theorem C7_alloc_fence_counterexample :
    ¬ ((pvr_sync_ioctl_alloc_fence tlFixture emptyPool).timeline.fencing_enabled
        = false) := by
  decide

/-- C1: an update-mode query on an alloc fd that still carries its sync
data, with enough remaining capacity, appends exactly one wait entry (the
timeline prim's address at the recorded `timeline_fence_value`) and
exactly two update entries (the handle's own fence prim address at its
`next_value + 1`, and the timeline prim's address at the recorded
`timeline_update_value`); the fence accumulator grows by 1, the update
accumulator by 2, and the timeline's `fencing_enabled` is cleared. -/
theorem C1_query_update_entries (a : AllocData) (tl : Timeline)
    (q : QueryState) (sd : SyncData) (kernel : KernelPair)
    (hsd : a.sync_data = some sd) (hker : sd.kernel = some kernel)
    (hmax : q.max_entries < U32MOD)
    (hfcap : q.fence_num + 1 ≤ q.max_entries)
    (hucap : q.update_num + 2 ≤ q.max_entries) :
    (pvr_sync_query_sync_update a tl q).1 = PVRSRV_OK ∧
    (pvr_sync_query_sync_update a tl q).2.2.2.fence_writes =
      q.fence_writes ++
        [UfoEntry.mk q.fence_num tl.timeline_sync.vaddr
          sd.timeline_fence_value] ∧
    (pvr_sync_query_sync_update a tl q).2.2.2.fence_num =
      q.fence_num + 1 ∧
    (pvr_sync_query_sync_update a tl q).2.2.2.update_writes =
      q.update_writes ++
        [UfoEntry.mk q.update_num kernel.fence_sync.vaddr
          ((kernel.fence_sync.next_value + 1) % U32MOD),
         UfoEntry.mk (q.update_num + 1) tl.timeline_sync.vaddr
          sd.timeline_update_value] ∧
    (pvr_sync_query_sync_update a tl q).2.2.2.update_num =
      q.update_num + 2 ∧
    (pvr_sync_query_sync_update a tl q).2.2.1.fencing_enabled = false ∧
    (pvr_sync_query_sync_update a tl q).2.2.1.timeline_sync =
      tl.timeline_sync ∧
    (pvr_sync_query_sync_update a tl q).2.1.sync_data =
      some { sd with kernel := some { kernel with fence_sync :=
        { kernel.fence_sync with next_value :=
          (kernel.fence_sync.next_value + 1) % U32MOD } } } := by
  have hfe : u32sub q.max_entries q.fence_num = q.max_entries - q.fence_num :=
    u32sub_exact _ _ hmax (by omega)
  have hue : u32sub q.max_entries q.update_num = q.max_entries - q.update_num :=
    u32sub_exact _ _ hmax (by omega)
  have h1 : ¬ u32sub q.max_entries q.fence_num < 1 := by
    rw [hfe]; omega
  have h2 : ¬ u32sub q.max_entries q.update_num < 2 := by
    rw [hue]; omega
  have hu1 : (q.update_num + 1) % U32MOD = q.update_num + 1 :=
    Nat.mod_eq_of_lt (by unfold U32MOD at *; omega)
  have hf1 : (q.fence_num + 1) % U32MOD = q.fence_num + 1 :=
    Nat.mod_eq_of_lt (by unfold U32MOD at *; omega)
  have hu2 : (q.update_num + 1 + 1) % U32MOD = q.update_num + 2 :=
    Nat.mod_eq_of_lt (by unfold U32MOD at *; omega)
  refine ⟨?_, ?_, ?_, ?_, ?_, ?_, ?_, ?_⟩ <;>
    simp [pvr_sync_query_sync_update, hsd, hker, h1, h2, hu1, hf1, hu2]

/-- Witness for C1 at a concrete alloc handle, timeline and buffer. -/
theorem C1_query_update_entries_witness :
    (pvr_sync_query_sync_update { sync_data := some sdFixture } tlFixture
      qFixture).2.2.2.fence_num = qFixture.fence_num + 1 :=
  (C1_query_update_entries { sync_data := some sdFixture } tlFixture qFixture
    sdFixture { fence_sync := primF, cleanup_sync := none }
    rfl rfl (by decide) (by decide) (by decide)).2.2.1

/-- C10: an update-mode query on an alloc fd whose sync data has already
been consumed by create-fence returns `PVRSRV_ERROR_RESOURCE_UNAVAILABLE`
and leaves the alloc data, the timeline (its prim and `fencing_enabled`
flag) and the query buffers (write logs and both accumulators) unchanged. -/
theorem C10_query_update_after_create (a : AllocData) (tl : Timeline)
    (q : QueryState) (h : a.sync_data = none) :
    pvr_sync_query_sync_update a tl q =
      (PVRSRV_ERROR_RESOURCE_UNAVAILABLE, a, tl, q) := by
  simp [pvr_sync_query_sync_update, h]

/-- Witness for C10 at a concrete created (consumed) alloc handle. -/
theorem C10_query_update_after_create_witness :
    pvr_sync_query_sync_update { sync_data := none } tlFixture qFixture =
      (PVRSRV_ERROR_RESOURCE_UNAVAILABLE, { sync_data := none },
       tlFixture, qFixture) :=
  C10_query_update_after_create { sync_data := none } tlFixture qFixture rfl

/-! ## The check-mode query (`pvr_sync_query_sync_check`) -/

/-- One constituent point of the fence handed to a check-mode query:
either a point on one of this engine's timelines (its `parent->ops`
match `pvr_sync_timeline_ops`), carrying its shared sync data and the
parent timeline's name, or a foreign point, of which only the base
framework's `status` field is consulted. -/
inductive FencePt where
  | pvr (sd : SyncData) (parent_name : String)
  | foreign (status : Int)
  deriving DecidableEq, Repr

/-- The evolving state of one check-mode query: the caller's buffers,
the prim pool, the `have_active_foreign_sync` flag, the points as left
behind by the loop (their sync data may gain a cleanup prim), and
whether the loop was aborted by the capacity check (`goto err_put`). -/
structure CheckState where
  q : QueryState
  pool : Pool
  have_active_foreign : Bool
  pts_out : List FencePt
  stopped : Bool
  deriving DecidableEq, Repr

/-- The body of the `list_for_each_entry` loop of
`pvr_sync_query_sync_check`, for one sync point.  Once the capacity
check has failed (`stopped`), the remaining points are not processed. -/
def check_pt_step (s : CheckState) (pt : FencePt) : CheckState :=
  if s.stopped then { s with pts_out := s.pts_out ++ [pt] }
  else
    match pt with
    | .foreign status =>
      -- Foreign sync points which are still active are handled by one
      -- aggregated shadow sync prim after the loop.
      if status == 0 then
        { s with have_active_foreign := true, pts_out := s.pts_out ++ [pt] }
      else
        { s with pts_out := s.pts_out ++ [pt] }
    | .pvr sd parent_name =>
      match sd.kernel with
      | none =>
        -- Idle point: already fulfilled, nothing to wait on.
        { s with pts_out := s.pts_out ++ [pt] }
      | some kernel =>
        if is_sync_met kernel.fence_sync then
          -- Already signalled: do not return it to the caller.
          { s with pts_out := s.pts_out ++ [pt] }
        else if u32sub s.q.max_entries s.q.fence_num < 1 ∨
                u32sub s.q.max_entries s.q.update_num < 1 then
          { s with stopped := true, pts_out := s.pts_out ++ [pt] }
        else
          let cp : SyncPrim × Pool :=
            match kernel.cleanup_sync with
            | some c => (c, s.pool)
            | none => sync_pool_get s.pool parent_name SYNC_PT_CLEANUP_TYPE
          let cleanup' : SyncPrim :=
            { cp.1 with next_value := (cp.1.next_value + 1) % U32MOD }
          let q' : QueryState := { s.q with
            fence_writes := s.q.fence_writes ++
              [UfoEntry.mk s.q.fence_num kernel.fence_sync.vaddr
                kernel.fence_sync.next_value],
            fence_num := (s.q.fence_num + 1) % U32MOD,
            update_writes := s.q.update_writes ++
              [UfoEntry.mk s.q.update_num cleanup'.vaddr
                cleanup'.next_value],
            update_num := (s.q.update_num + 1) % U32MOD }
          let kernel' : KernelPair :=
            { kernel with cleanup_sync := some cleanup' }
          let sd' : SyncData := { sd with kernel := some kernel' }
          { q := q', pool := cp.2,
            have_active_foreign := s.have_active_foreign,
            pts_out := s.pts_out ++ [.pvr sd' parent_name],
            stopped := false }

/-- `pvr_sync_create_waiter_for_foreign_sync` (fd resolution and
callback registration abstracted): allocates a foreign fence/cleanup
prim pair, pre-incrementing each prim's `next_value` once; `registered`
is false when `sync_fence_wait_async` reports the foreign fence broken
or already signalled, in which case both prims are rolled back into the
pool (cleanup first, then fence, as in the C unwind order) and no pair
is produced.  The success result is the waiter's (fence_sync,
cleanup_sync) pair. -/
def pvr_sync_create_waiter_for_foreign_sync (p : Pool) (fence_name : String)
    (registered : Bool) : Option (SyncPrim × SyncPrim) × Pool :=
  let r1 := sync_pool_get p fence_name SYNC_PT_FOREIGN_FENCE_TYPE
  let fence_sync : SyncPrim :=
    { r1.1 with next_value := (r1.1.next_value + 1) % U32MOD }
  let r2 := sync_pool_get r1.2 fence_name SYNC_PT_FOREIGN_CLEANUP_TYPE
  let cleanup_sync : SyncPrim :=
    { r2.1 with next_value := (r2.1.next_value + 1) % U32MOD }
  if registered then
    (some (fence_sync, cleanup_sync), r2.2)
  else
    let p3 := sync_pool_put r2.2 (r2.2.active_list.length - 1)
    let p4 := sync_pool_put p3 (p3.active_list.length - 1)
    (none, p4)

/-- `pvr_sync_query_sync_check` (fd resolution abstracted: the fence's
point list, its name and whether foreign-waiter registration would
succeed are passed in).  Walks the points, then adds at most one shadow
wait/update pair covering all still-active foreign points. -/
def pvr_sync_query_sync_check (pts : List FencePt) (fence_name : String)
    (registered : Bool) (q : QueryState) (p : Pool) :
    PVRSRV_ERROR × CheckState :=
  let s0 : CheckState :=
    { q := q, pool := p, have_active_foreign := false,
      pts_out := [], stopped := false }
  let s1 := pts.foldl check_pt_step s0
  if s1.stopped then (PVRSRV_OK, s1)
  else if s1.have_active_foreign then
    if u32sub s1.q.max_entries s1.q.fence_num < 1 ∨
       u32sub s1.q.max_entries s1.q.update_num < 1 then
      (PVRSRV_OK, { s1 with stopped := true })
    else
      let r := pvr_sync_create_waiter_for_foreign_sync s1.pool fence_name
        registered
      match r.1 with
      | none =>
        -- The foreign fence signalled in the meantime: nothing to add.
        (PVRSRV_OK, { s1 with pool := r.2 })
      | some pair =>
        let q' : QueryState := { s1.q with
          fence_writes := s1.q.fence_writes ++
            [UfoEntry.mk s1.q.fence_num pair.1.vaddr pair.1.next_value],
          fence_num := (s1.q.fence_num + 1) % U32MOD,
          update_writes := s1.q.update_writes ++
            [UfoEntry.mk s1.q.update_num pair.2.vaddr pair.2.next_value],
          update_num := (s1.q.update_num + 1) % U32MOD }
        (PVRSRV_OK, { s1 with pool := r.2, q := q' })
  else (PVRSRV_OK, s1)

/-- Well-formedness of the caller's query buffers: capacity is a `u32`,
both accumulators are within capacity, and every logged write landed at
an index below capacity. -/
def QWf (q : QueryState) : Prop :=
  q.max_entries < U32MOD ∧
  q.fence_num ≤ q.max_entries ∧
  q.update_num ≤ q.max_entries ∧
  (∀ w ∈ q.fence_writes, w.idx < q.max_entries) ∧
  (∀ w ∈ q.update_writes, w.idx < q.max_entries)

theorem check_guard_false (max f u : Nat) (hmax : max < U32MOD)
    (hf : f + 1 ≤ max) (hu : u + 1 ≤ max) :
    ¬ (u32sub max f < 1 ∨ u32sub max u < 1) := by
  rw [u32sub_exact _ _ hmax (by omega), u32sub_exact _ _ hmax (by omega)]
  omega

theorem check_pt_step_stopped (s : CheckState) (pt : FencePt)
    (h : s.stopped = true) :
    check_pt_step s pt = { s with pts_out := s.pts_out ++ [pt] } := by
  unfold check_pt_step
  rw [h]
  rfl

theorem check_pt_step_foreign (s : CheckState) (status : Int)
    (hstop : s.stopped = false) :
    check_pt_step s (.foreign status) =
      if status == 0 then
        { s with have_active_foreign := true,
                 pts_out := s.pts_out ++ [.foreign status] }
      else { s with pts_out := s.pts_out ++ [.foreign status] } := by
  simp only [check_pt_step, hstop, Bool.false_eq_true, if_false]

theorem check_pt_step_pvr_idle (s : CheckState) (sd : SyncData)
    (parent_name : String) (hstop : s.stopped = false)
    (hk : sd.kernel = none) :
    check_pt_step s (.pvr sd parent_name) =
      { s with pts_out := s.pts_out ++ [.pvr sd parent_name] } := by
  simp only [check_pt_step, hstop, Bool.false_eq_true, if_false, hk]

theorem check_pt_step_pvr_met (s : CheckState) (sd : SyncData)
    (parent_name : String) (kernel : KernelPair)
    (hstop : s.stopped = false) (hk : sd.kernel = some kernel)
    (hmet : is_sync_met kernel.fence_sync = true) :
    check_pt_step s (.pvr sd parent_name) =
      { s with pts_out := s.pts_out ++ [.pvr sd parent_name] } := by
  simp only [check_pt_step, hstop, Bool.false_eq_true, if_false, hk, hmet,
    if_true]

theorem check_pt_step_pvr_nospace (s : CheckState) (sd : SyncData)
    (parent_name : String) (kernel : KernelPair)
    (hstop : s.stopped = false) (hk : sd.kernel = some kernel)
    (hmet : is_sync_met kernel.fence_sync = false)
    (hcap : u32sub s.q.max_entries s.q.fence_num < 1 ∨
            u32sub s.q.max_entries s.q.update_num < 1) :
    check_pt_step s (.pvr sd parent_name) =
      { s with stopped := true,
               pts_out := s.pts_out ++ [.pvr sd parent_name] } := by
  simp only [check_pt_step, hstop, Bool.false_eq_true, if_false, hk, hmet,
    if_pos hcap]

theorem check_pt_step_pvr_unsat (s : CheckState) (sd : SyncData)
    (parent_name : String) (kernel : KernelPair)
    (hstop : s.stopped = false) (hk : sd.kernel = some kernel)
    (hmet : is_sync_met kernel.fence_sync = false)
    (hcap : ¬ (u32sub s.q.max_entries s.q.fence_num < 1 ∨
               u32sub s.q.max_entries s.q.update_num < 1)) :
    check_pt_step s (.pvr sd parent_name) =
      (let cp : SyncPrim × Pool :=
        match kernel.cleanup_sync with
        | some c => (c, s.pool)
        | none => sync_pool_get s.pool parent_name SYNC_PT_CLEANUP_TYPE
      let cleanup' : SyncPrim :=
        { cp.1 with next_value := (cp.1.next_value + 1) % U32MOD }
      let q' : QueryState := { s.q with
        fence_writes := s.q.fence_writes ++
          [UfoEntry.mk s.q.fence_num kernel.fence_sync.vaddr
            kernel.fence_sync.next_value],
        fence_num := (s.q.fence_num + 1) % U32MOD,
        update_writes := s.q.update_writes ++
          [UfoEntry.mk s.q.update_num cleanup'.vaddr cleanup'.next_value],
        update_num := (s.q.update_num + 1) % U32MOD }
      let kernel' : KernelPair :=
        { kernel with cleanup_sync := some cleanup' }
      let sd' : SyncData := { sd with kernel := some kernel' }
      { q := q', pool := cp.2,
        have_active_foreign := s.have_active_foreign,
        pts_out := s.pts_out ++ [.pvr sd' parent_name],
        stopped := false }) := by
  simp only [check_pt_step, hstop, Bool.false_eq_true, if_false, hk, hmet,
    if_neg hcap]

theorem check_pt_step_QWf (s : CheckState) (pt : FencePt)
    (h : QWf s.q) : QWf (check_pt_step s pt).q := by
  obtain ⟨hmax, hf, hu, hfw, huw⟩ := h
  by_cases hstop : s.stopped = true
  · rw [check_pt_step_stopped s pt hstop]
    exact ⟨hmax, hf, hu, hfw, huw⟩
  · rw [Bool.not_eq_true] at hstop
    cases pt with
    | foreign status =>
      rw [check_pt_step_foreign s status hstop]
      split_ifs <;> exact ⟨hmax, hf, hu, hfw, huw⟩
    | pvr sd parent_name =>
      cases hk : sd.kernel with
      | none =>
        rw [check_pt_step_pvr_idle s sd parent_name hstop hk]
        exact ⟨hmax, hf, hu, hfw, huw⟩
      | some kernel =>
        cases hmet : is_sync_met kernel.fence_sync with
        | true =>
          rw [check_pt_step_pvr_met s sd parent_name kernel hstop hk hmet]
          exact ⟨hmax, hf, hu, hfw, huw⟩
        | false =>
          by_cases hcap : u32sub s.q.max_entries s.q.fence_num < 1 ∨
              u32sub s.q.max_entries s.q.update_num < 1
          · rw [check_pt_step_pvr_nospace s sd parent_name kernel hstop hk
              hmet hcap]
            exact ⟨hmax, hf, hu, hfw, huw⟩
          · rw [check_pt_step_pvr_unsat s sd parent_name kernel hstop hk
              hmet hcap]
            rw [not_or] at hcap
            obtain ⟨hcapf, hcapu⟩ := hcap
            rw [u32sub_exact _ _ hmax hf] at hcapf
            rw [u32sub_exact _ _ hmax hu] at hcapu
            have hfmod : (s.q.fence_num + 1) % U32MOD = s.q.fence_num + 1 :=
              Nat.mod_eq_of_lt (by omega)
            have humod : (s.q.update_num + 1) % U32MOD = s.q.update_num + 1 :=
              Nat.mod_eq_of_lt (by omega)
            refine ⟨hmax, ?_, ?_, ?_, ?_⟩ <;> simp only [hfmod, humod]
            · omega
            · omega
            · intro w hw
              rcases List.mem_append.mp hw with hw | hw
              · exact hfw w hw
              · rw [List.mem_singleton] at hw
                subst hw
                show s.q.fence_num < s.q.max_entries
                omega
            · intro w hw
              rcases List.mem_append.mp hw with hw | hw
              · exact huw w hw
              · rw [List.mem_singleton] at hw
                subst hw
                show s.q.update_num < s.q.max_entries
                omega

theorem check_foldl_QWf (pts : List FencePt) :
    ∀ s : CheckState, QWf s.q → QWf (pts.foldl check_pt_step s).q := by
  induction pts with
  | nil => exact fun s h => h
  | cons pt pts ih =>
    intro s h
    exact ih (check_pt_step s pt) (check_pt_step_QWf s pt h)

theorem query_check_status_ok (pts : List FencePt) (fence_name : String)
    (registered : Bool) (q : QueryState) (p : Pool) :
    (pvr_sync_query_sync_check pts fence_name registered q p).1 =
      PVRSRV_OK := by
  simp only [pvr_sync_query_sync_check]
  split_ifs <;> try rfl
  cases (pvr_sync_create_waiter_for_foreign_sync
    (List.foldl check_pt_step
      { q := q, pool := p, have_active_foreign := false,
        pts_out := [], stopped := false } pts).pool fence_name
    registered).1 <;> rfl

theorem query_check_QWf (pts : List FencePt) (fence_name : String)
    (registered : Bool) (q : QueryState) (p : Pool) (h : QWf q) :
    QWf (pvr_sync_query_sync_check pts fence_name registered q p).2.q := by
  have h1 : QWf (List.foldl check_pt_step
      { q := q, pool := p, have_active_foreign := false,
        pts_out := [], stopped := false } pts).q :=
    check_foldl_QWf pts _ h
  simp only [pvr_sync_query_sync_check]
  generalize hS : List.foldl check_pt_step
      { q := q, pool := p, have_active_foreign := false,
        pts_out := [], stopped := false } pts = s1 at h1 ⊢
  obtain ⟨hmax, hf, hu, hfw, huw⟩ := h1
  split_ifs with hstop hforeign hcap
  · exact ⟨hmax, hf, hu, hfw, huw⟩
  · exact ⟨hmax, hf, hu, hfw, huw⟩
  · cases hr : (pvr_sync_create_waiter_for_foreign_sync s1.pool fence_name
        registered).1 with
    | none =>
      simp only [hr]
      exact ⟨hmax, hf, hu, hfw, huw⟩
    | some pair =>
      simp only [hr]
      rw [not_or] at hcap
      obtain ⟨hcapf, hcapu⟩ := hcap
      rw [u32sub_exact _ _ hmax hf] at hcapf
      rw [u32sub_exact _ _ hmax hu] at hcapu
      have hfmod : (s1.q.fence_num + 1) % U32MOD = s1.q.fence_num + 1 :=
        Nat.mod_eq_of_lt (by omega)
      have humod : (s1.q.update_num + 1) % U32MOD = s1.q.update_num + 1 :=
        Nat.mod_eq_of_lt (by omega)
      refine ⟨hmax, ?_, ?_, ?_, ?_⟩ <;> simp only [hfmod, humod]
      · omega
      · omega
      · intro w hw
        rcases List.mem_append.mp hw with hw | hw
        · exact hfw w hw
        · rw [List.mem_singleton] at hw
          subst hw
          show s1.q.fence_num < s1.q.max_entries
          omega
      · intro w hw
        rcases List.mem_append.mp hw with hw | hw
        · exact huw w hw
        · rw [List.mem_singleton] at hw
          subst hw
          show s1.q.update_num < s1.q.max_entries
          omega
  · exact ⟨hmax, hf, hu, hfw, huw⟩

theorem sync_pool_get_next_value (p : Pool) (c : String) (t : Nat) :
    (sync_pool_get p c t).1.next_value = 0 := by
  unfold sync_pool_get
  cases p.free_list <;> rfl

theorem query_update_QWf (a : AllocData) (tl : Timeline) (q : QueryState)
    (h : QWf q) : QWf (pvr_sync_query_sync_update a tl q).2.2.2 := by
  obtain ⟨hmax, hf, hu, hfw, huw⟩ := h
  cases hsd : a.sync_data with
  | none =>
    simp only [pvr_sync_query_sync_update, hsd]
    exact ⟨hmax, hf, hu, hfw, huw⟩
  | some sd =>
    cases hk : sd.kernel with
    | none =>
      simp only [pvr_sync_query_sync_update, hsd, hk]
      exact ⟨hmax, hf, hu, hfw, huw⟩
    | some kernel =>
      by_cases hcap : u32sub q.max_entries q.fence_num < 1 ∨
          u32sub q.max_entries q.update_num < 2
      · simp only [pvr_sync_query_sync_update, hsd, hk, if_pos hcap]
        exact ⟨hmax, hf, hu, hfw, huw⟩
      · simp only [pvr_sync_query_sync_update, hsd, hk, if_neg hcap]
        rw [not_or] at hcap
        obtain ⟨hcapf, hcapu⟩ := hcap
        rw [u32sub_exact _ _ hmax hf] at hcapf
        rw [u32sub_exact _ _ hmax hu] at hcapu
        have humod1 : (q.update_num + 1) % U32MOD = q.update_num + 1 :=
          Nat.mod_eq_of_lt (by omega)
        have hfmod : (q.fence_num + 1) % U32MOD = q.fence_num + 1 :=
          Nat.mod_eq_of_lt (by omega)
        have humod2 : (q.update_num + 1 + 1) % U32MOD = q.update_num + 2 :=
          Nat.mod_eq_of_lt (by omega)
        refine ⟨hmax, ?_, ?_, ?_, ?_⟩ <;>
          simp only [humod1, hfmod, humod2]
        · omega
        · omega
        · intro w hw
          rcases List.mem_append.mp hw with hw | hw
          · exact hfw w hw
          · rw [List.mem_singleton] at hw
            subst hw
            show q.fence_num < q.max_entries
            omega
        · intro w hw
          rcases List.mem_append.mp hw with hw | hw
          · rcases List.mem_append.mp hw with hw | hw
            · exact huw w hw
            · rw [List.mem_singleton] at hw
              subst hw
              show q.update_num < q.max_entries
              omega
          · rw [List.mem_singleton] at hw
            subst hw
            show q.update_num + 1 < q.max_entries
            omega

/-- C2: in a check-mode query, an idle point (no kernel pair) or a point
whose fence prim is already met contributes no entries and changes
neither buffers nor pool; an unsatisfied point contributes exactly one
wait entry (its fence prim's address at that prim's `next_value`) and
one update entry advancing its cleanup prim — the existing cleanup prim
when present (advanced to `next_value + 1`), or one allocated from the
pool at that moment (advanced to 1) when absent; and a fence of one
already-met point and one unsatisfied point yields exactly one
wait/update pair. -/
theorem C2_query_check_pairs :
    (∀ (s : CheckState) (sd : SyncData) (parent_name : String),
      s.stopped = false → sd.kernel = none →
      (check_pt_step s (.pvr sd parent_name)).q = s.q ∧
      (check_pt_step s (.pvr sd parent_name)).pool = s.pool) ∧
    (∀ (s : CheckState) (sd : SyncData) (parent_name : String)
       (kernel : KernelPair),
      s.stopped = false → sd.kernel = some kernel →
      is_sync_met kernel.fence_sync = true →
      (check_pt_step s (.pvr sd parent_name)).q = s.q ∧
      (check_pt_step s (.pvr sd parent_name)).pool = s.pool) ∧
    (∀ (s : CheckState) (sd : SyncData) (parent_name : String)
       (kernel : KernelPair) (c : SyncPrim),
      s.stopped = false → sd.kernel = some kernel →
      is_sync_met kernel.fence_sync = false →
      kernel.cleanup_sync = some c →
      s.q.max_entries < U32MOD →
      s.q.fence_num + 1 ≤ s.q.max_entries →
      s.q.update_num + 1 ≤ s.q.max_entries →
      (check_pt_step s (.pvr sd parent_name)).q.fence_writes =
        s.q.fence_writes ++ [UfoEntry.mk s.q.fence_num
          kernel.fence_sync.vaddr kernel.fence_sync.next_value] ∧
      (check_pt_step s (.pvr sd parent_name)).q.fence_num =
        s.q.fence_num + 1 ∧
      (check_pt_step s (.pvr sd parent_name)).q.update_writes =
        s.q.update_writes ++ [UfoEntry.mk s.q.update_num c.vaddr
          ((c.next_value + 1) % U32MOD)] ∧
      (check_pt_step s (.pvr sd parent_name)).q.update_num =
        s.q.update_num + 1 ∧
      (check_pt_step s (.pvr sd parent_name)).pool = s.pool) ∧
    (∀ (s : CheckState) (sd : SyncData) (parent_name : String)
       (kernel : KernelPair),
      s.stopped = false → sd.kernel = some kernel →
      is_sync_met kernel.fence_sync = false →
      kernel.cleanup_sync = none →
      s.q.max_entries < U32MOD →
      s.q.fence_num + 1 ≤ s.q.max_entries →
      s.q.update_num + 1 ≤ s.q.max_entries →
      (check_pt_step s (.pvr sd parent_name)).q.fence_writes =
        s.q.fence_writes ++ [UfoEntry.mk s.q.fence_num
          kernel.fence_sync.vaddr kernel.fence_sync.next_value] ∧
      (check_pt_step s (.pvr sd parent_name)).q.fence_num =
        s.q.fence_num + 1 ∧
      (check_pt_step s (.pvr sd parent_name)).q.update_writes =
        s.q.update_writes ++ [UfoEntry.mk s.q.update_num
          (sync_pool_get s.pool parent_name SYNC_PT_CLEANUP_TYPE).1.vaddr 1] ∧
      (check_pt_step s (.pvr sd parent_name)).q.update_num =
        s.q.update_num + 1 ∧
      (check_pt_step s (.pvr sd parent_name)).pool =
        (sync_pool_get s.pool parent_name SYNC_PT_CLEANUP_TYPE).2) ∧
    (∀ (q : QueryState) (p : Pool) (sdA sdB : SyncData) (nA nB : String)
       (kA kB : KernelPair) (fence_name : String) (registered : Bool),
      sdA.kernel = some kA → is_sync_met kA.fence_sync = true →
      sdB.kernel = some kB → is_sync_met kB.fence_sync = false →
      q.max_entries < U32MOD →
      q.fence_num + 1 ≤ q.max_entries →
      q.update_num + 1 ≤ q.max_entries →
      (pvr_sync_query_sync_check [.pvr sdA nA, .pvr sdB nB] fence_name
        registered q p).1 = PVRSRV_OK ∧
      (pvr_sync_query_sync_check [.pvr sdA nA, .pvr sdB nB] fence_name
        registered q p).2.q.fence_num = q.fence_num + 1 ∧
      (pvr_sync_query_sync_check [.pvr sdA nA, .pvr sdB nB] fence_name
        registered q p).2.q.update_num = q.update_num + 1 ∧
      (pvr_sync_query_sync_check [.pvr sdA nA, .pvr sdB nB] fence_name
        registered q p).2.q.fence_writes = q.fence_writes ++
          [UfoEntry.mk q.fence_num kB.fence_sync.vaddr
            kB.fence_sync.next_value] ∧
      (pvr_sync_query_sync_check [.pvr sdA nA, .pvr sdB nB] fence_name
        registered q p).2.q.update_writes.length =
          q.update_writes.length + 1) := by
  have hskip_idle : ∀ (s : CheckState) (sd : SyncData) (n : String),
      s.stopped = false → sd.kernel = none →
      check_pt_step s (.pvr sd n) =
        { s with pts_out := s.pts_out ++ [.pvr sd n] } :=
    fun s sd n hstop hk => check_pt_step_pvr_idle s sd n hstop hk
  refine ⟨?_, ?_, ?_, ?_, ?_⟩
  · intro s sd n hstop hk
    rw [hskip_idle s sd n hstop hk]
    exact ⟨rfl, rfl⟩
  · intro s sd n kernel hstop hk hmet
    rw [check_pt_step_pvr_met s sd n kernel hstop hk hmet]
    exact ⟨rfl, rfl⟩
  · intro s sd n kernel c hstop hk hmet hc hmax hf hu
    have hcap := check_guard_false s.q.max_entries s.q.fence_num
      s.q.update_num hmax hf hu
    rw [check_pt_step_pvr_unsat s sd n kernel hstop hk hmet hcap]
    have hfmod : (s.q.fence_num + 1) % U32MOD = s.q.fence_num + 1 :=
      Nat.mod_eq_of_lt (by unfold U32MOD at *; omega)
    have humod : (s.q.update_num + 1) % U32MOD = s.q.update_num + 1 :=
      Nat.mod_eq_of_lt (by unfold U32MOD at *; omega)
    refine ⟨rfl, hfmod, ?_, humod, ?_⟩ <;> simp only [hc]
  · intro s sd n kernel hstop hk hmet hc hmax hf hu
    have hcap := check_guard_false s.q.max_entries s.q.fence_num
      s.q.update_num hmax hf hu
    rw [check_pt_step_pvr_unsat s sd n kernel hstop hk hmet hcap]
    have hfmod : (s.q.fence_num + 1) % U32MOD = s.q.fence_num + 1 :=
      Nat.mod_eq_of_lt (by unfold U32MOD at *; omega)
    have humod : (s.q.update_num + 1) % U32MOD = s.q.update_num + 1 :=
      Nat.mod_eq_of_lt (by unfold U32MOD at *; omega)
    have hnv := sync_pool_get_next_value s.pool n SYNC_PT_CLEANUP_TYPE
    refine ⟨rfl, hfmod, ?_, humod, ?_⟩ <;> simp [hc, hnv, U32MOD]
  · intro q p sdA sdB nA nB kA kB fence_name registered hkA hmetA hkB
      hmetB hmax hf hu
    have hcap := check_guard_false q.max_entries q.fence_num q.update_num
      hmax hf hu
    have hfmod : (q.fence_num + 1) % U32MOD = q.fence_num + 1 :=
      Nat.mod_eq_of_lt (by unfold U32MOD at *; omega)
    have humod : (q.update_num + 1) % U32MOD = q.update_num + 1 :=
      Nat.mod_eq_of_lt (by unfold U32MOD at *; omega)
    simp only [pvr_sync_query_sync_check, List.foldl_cons, List.foldl_nil]
    rw [check_pt_step_pvr_met _ sdA nA kA rfl hkA hmetA]
    rw [check_pt_step_pvr_unsat _ sdB nB kB rfl hkB hmetB hcap]
    cases hc : kB.cleanup_sync with
    | none =>
      refine ⟨rfl, ?_, ?_, ?_, ?_⟩ <;>
        simp [hc, hfmod, humod]
    | some c =>
      refine ⟨rfl, ?_, ?_, ?_, ?_⟩ <;>
        simp [hc, hfmod, humod]

/-- A concrete met fence prim (current = target = 2). -/
def primM : SyncPrim :=
  { id := 4, vaddr := 400, current := 2, next_value := 2,
    type := 1, class_name := "m" }

/-- A concrete unmet fence prim (current 0, target 1). -/
def primU : SyncPrim :=
  { id := 3, vaddr := 300, current := 0, next_value := 1,
    type := 1, class_name := "u" }

/-- Sync data of an already-satisfied point. -/
def sdMet : SyncData :=
  { kernel := some { fence_sync := primM, cleanup_sync := none },
    timeline_fence_value := 0, timeline_update_value := 1, refcount := 1 }

/-- Sync data of an unsatisfied point. -/
def sdUnmet : SyncData :=
  { kernel := some { fence_sync := primU, cleanup_sync := none },
    timeline_fence_value := 1, timeline_update_value := 2, refcount := 1 }

/-- Witness for C2: a concrete two-point fence (one met, one unmet)
yields exactly one additional wait entry. -/
theorem C2_query_check_pairs_witness :
    (pvr_sync_query_sync_check [.pvr sdMet "a", .pvr sdUnmet "b"] "f" true
      qFixture emptyPool).2.q.fence_num = qFixture.fence_num + 1 :=
  (C2_query_check_pairs.2.2.2.2 qFixture emptyPool sdMet sdUnmet "a" "b"
    { fence_sync := primM, cleanup_sync := none }
    { fence_sync := primU, cleanup_sync := none }
    "f" true rfl (by decide) rfl (by decide) (by decide) (by decide)
    (by decide)).2.1

/-- C9: when the remaining buffer capacity is smaller than what the
current fence needs, the query stops processing that fence and returns
the accumulated results with a success status: an update-mode query with
less than 1 fence slot or 2 update slots left returns `PVRSRV_OK` with
everything unchanged; a check-mode step on an unsatisfied point with
less than 1 slot left in either buffer aborts the loop with buffers and
pool untouched, and once aborted the remaining points change nothing;
the check query's status is always `PVRSRV_OK`; and neither query mode
ever writes an entry at an index ≥ `max_entries` or pushes an
accumulator beyond `max_entries` (QWf preservation). -/
theorem C9_query_capacity_truncation :
    (∀ (a : AllocData) (tl : Timeline) (q : QueryState) (sd : SyncData)
       (kernel : KernelPair),
      a.sync_data = some sd → sd.kernel = some kernel →
      q.max_entries < U32MOD → q.fence_num ≤ q.max_entries →
      q.update_num ≤ q.max_entries →
      (q.max_entries - q.fence_num < 1 ∨ q.max_entries - q.update_num < 2) →
      pvr_sync_query_sync_update a tl q = (PVRSRV_OK, a, tl, q)) ∧
    (∀ (s : CheckState) (sd : SyncData) (parent_name : String)
       (kernel : KernelPair),
      s.stopped = false → sd.kernel = some kernel →
      is_sync_met kernel.fence_sync = false →
      s.q.max_entries < U32MOD → s.q.fence_num ≤ s.q.max_entries →
      s.q.update_num ≤ s.q.max_entries →
      (s.q.max_entries - s.q.fence_num < 1 ∨
       s.q.max_entries - s.q.update_num < 1) →
      check_pt_step s (.pvr sd parent_name) =
        { s with stopped := true,
                 pts_out := s.pts_out ++ [.pvr sd parent_name] }) ∧
    (∀ (s : CheckState) (pt : FencePt), s.stopped = true →
      check_pt_step s pt = { s with pts_out := s.pts_out ++ [pt] }) ∧
    (∀ (pts : List FencePt) (fence_name : String) (registered : Bool)
       (q : QueryState) (p : Pool),
      (pvr_sync_query_sync_check pts fence_name registered q p).1 =
        PVRSRV_OK) ∧
    (∀ (pts : List FencePt) (fence_name : String) (registered : Bool)
       (q : QueryState) (p : Pool), QWf q →
      QWf (pvr_sync_query_sync_check pts fence_name registered q p).2.q) ∧
    (∀ (a : AllocData) (tl : Timeline) (q : QueryState), QWf q →
      QWf (pvr_sync_query_sync_update a tl q).2.2.2) := by
  refine ⟨?_, ?_, ?_, ?_, ?_, ?_⟩
  · intro a tl q sd kernel hsd hker hmax hf hu hcap
    have hcap' : u32sub q.max_entries q.fence_num < 1 ∨
        u32sub q.max_entries q.update_num < 2 := by
      rw [u32sub_exact _ _ hmax hf, u32sub_exact _ _ hmax hu]
      exact hcap
    simp only [pvr_sync_query_sync_update, hsd, hker]
    rw [if_pos hcap']
  · intro s sd parent_name kernel hstop hk hmet hmax hf hu hcap
    have hcap' : u32sub s.q.max_entries s.q.fence_num < 1 ∨
        u32sub s.q.max_entries s.q.update_num < 1 := by
      rw [u32sub_exact _ _ hmax hf, u32sub_exact _ _ hmax hu]
      exact hcap
    exact check_pt_step_pvr_nospace s sd parent_name kernel hstop hk hmet
      hcap'
  · exact fun s pt h => check_pt_step_stopped s pt h
  · exact fun pts fence_name registered q p =>
      query_check_status_ok pts fence_name registered q p
  · exact fun pts fence_name registered q p h =>
      query_check_QWf pts fence_name registered q p h
  · exact fun a tl q h => query_update_QWf a tl q h

/-- Witness for C9: a concrete update-mode query against a full fence
buffer (capacity 2, accumulator already 2) truncates, returning
`PVRSRV_OK` and the unchanged state. -/
theorem C9_query_capacity_truncation_witness :
    pvr_sync_query_sync_update { sync_data := some sdFixture } tlFixture
      { max_entries := 2, fence_writes := [], fence_num := 2,
        update_writes := [], update_num := 0 } =
      (PVRSRV_OK, { sync_data := some sdFixture }, tlFixture,
       { max_entries := 2, fence_writes := [], fence_num := 2,
         update_writes := [], update_num := 0 }) :=
  C9_query_capacity_truncation.1 { sync_data := some sdFixture } tlFixture
    { max_entries := 2, fence_writes := [], fence_num := 2,
      update_writes := [], update_num := 0 }
    sdFixture { fence_sync := primF, cleanup_sync := none }
    rfl rfl (by decide) (by decide) (by decide) (by decide)

/-! ## Timeline lifecycle as an operation sequence (alloc / create /
release / query / enable-fencing / hardware completion) -/

/-- `pvr_sync_alloc_release` (the `.release` fop of an alloc fd):
if create was never called (`sync_data` still present) and the backing
fence prim was never advanced by an update query (`next_value == 0`),
roll the timeline prim's `next_value` back to the handle's recorded
`timeline_fence_value`.  The C code dereferences `sync_data->kernel`
unconditionally; alloc-created sync data always carries a kernel pair,
so the `none` branch is unreachable. -/
def pvr_sync_alloc_release (a : AllocData) (tl : Timeline) : Timeline :=
  match a.sync_data with
  | none => tl
  | some sd =>
    match sd.kernel with
    | some kernel =>
      if kernel.fence_sync.next_value == 0 then
        { tl with timeline_sync :=
          { tl.timeline_sync with next_value := sd.timeline_fence_value } }
      else tl
    | none => tl

/-- `pvr_sync_open` (success path): create the timeline with a fresh
timeline-type prim from the pool and fencing enabled. -/
def pvr_sync_open (name : String) (p : Pool) : Timeline × Pool :=
  let r := sync_pool_get p name SYNC_TL_TYPE
  ({ name := name, timeline_sync := r.1, fencing_enabled := true }, r.2)

/-- The operations a client (and the hardware) can perform against one
timeline.  Alloc handles are identified by their index in the engine
state's handle table. -/
inductive TLOp where
  | alloc
  | allocRelease (h : Nat)
  | createFence (h : Nat)
  | queryUpdate (h : Nat)
  | enableFencing (b : Bool)
  | hwComplete (v : Nat)
  deriving DecidableEq, Repr

/-- One timeline's world: the timeline, the prim pool, the alloc handle
table (`none` marks a closed fd slot), and one set of query buffers for
update-mode queries. -/
structure EngineState where
  timeline : Timeline
  pool : Pool
  handles : List (Option AllocData)
  q : QueryState
  deriving DecidableEq, Repr

/-- One engine step.  Returns the new state and, for an alloc, the
`bTimelineIdle` flag the ioctl reports to userspace.
`createFence` models `pvr_sync_ioctl_create_fence`'s effect on the
timeline world: the handle's `sync_data` pointer is nulled (the data
moves into the created sync point, which no later timeline operation
consults); the timeline itself is untouched on the success path.
`hwComplete` models the hardware/firmware advancing the timeline prim's
current value. -/
def engine_step (s : EngineState) : TLOp → EngineState × Option Bool
  | .alloc =>
    let r := pvr_sync_ioctl_alloc_fence s.timeline s.pool
    ({ s with timeline := r.timeline, pool := r.pool,
              handles := s.handles ++ [some r.alloc_data] },
     some r.bTimelineIdle)
  | .allocRelease h =>
    match s.handles[h]? with
    | some (some a) =>
      ({ s with timeline := pvr_sync_alloc_release a s.timeline,
                handles := s.handles.set h none }, none)
    | _ => (s, none)
  | .createFence h =>
    match s.handles[h]? with
    | some (some a) =>
      ({ s with handles := s.handles.set h (some { sync_data := none }) },
       none)
    | _ => (s, none)
  | .queryUpdate h =>
    match s.handles[h]? with
    | some (some a) =>
      let r := pvr_sync_query_sync_update a s.timeline s.q
      ({ s with timeline := r.2.2.1, q := r.2.2.2,
                handles := s.handles.set h (some r.2.1) }, none)
    | _ => (s, none)
  | .enableFencing b =>
    ({ s with timeline := { s.timeline with fencing_enabled := b } }, none)
  | .hwComplete v =>
    ({ s with timeline := { s.timeline with timeline_sync :=
        { s.timeline.timeline_sync with current := v % U32MOD } } }, none)

/-- Run a sequence of operations, collecting the reported idle flags. -/
def engine_run (s : EngineState) : List TLOp → EngineState × List Bool
  | [] => (s, [])
  | op :: ops =>
    let r := engine_step s op
    let rest := engine_run r.1 ops
    (rest.1, (match r.2 with | some b => [b] | none => []) ++ rest.2)

/-- Number of non-idle allocations among the reported flags. -/
def countNonIdle (flags : List Bool) : Nat :=
  (flags.filter (fun b => !b)).length

/-- The engine state right after `pvr_sync_open` on a fresh pool. -/
def engineInit (name : String) : EngineState :=
  let r := pvr_sync_open name emptyPool
  { timeline := r.1, pool := r.2, handles := [], q := qFixture }

theorem alloc_fence_next (tl : Timeline) (p : Pool) :
    (pvr_sync_ioctl_alloc_fence tl p).timeline.timeline_sync.next_value =
      if is_sync_met tl.timeline_sync && !tl.fencing_enabled then
        tl.timeline_sync.next_value
      else (tl.timeline_sync.next_value + 1) % U32MOD := by
  by_cases hidle : (is_sync_met tl.timeline_sync && !tl.fencing_enabled) = true
  · simp [pvr_sync_ioctl_alloc_fence, hidle]
  · rw [Bool.not_eq_true] at hidle
    simp [pvr_sync_ioctl_alloc_fence, hidle]

theorem alloc_fence_idle_eq (tl : Timeline) (p : Pool) :
    (pvr_sync_ioctl_alloc_fence tl p).bTimelineIdle =
      (is_sync_met tl.timeline_sync && !tl.fencing_enabled) := rfl

theorem query_update_tl_sync (a : AllocData) (tl : Timeline)
    (q : QueryState) :
    (pvr_sync_query_sync_update a tl q).2.2.1.timeline_sync =
      tl.timeline_sync := by
  cases hsd : a.sync_data with
  | none => simp [pvr_sync_query_sync_update, hsd]
  | some sd =>
    cases hk : sd.kernel with
    | none => simp [pvr_sync_query_sync_update, hsd, hk]
    | some kernel =>
      by_cases hcap : u32sub q.max_entries q.fence_num < 1 ∨
          u32sub q.max_entries q.update_num < 2
      · have hcap2 : u32sub q.max_entries q.fence_num = 0 ∨
            u32sub q.max_entries q.update_num < 2 := by omega
        simp [pvr_sync_query_sync_update, hsd, hk, hcap2]
      · have hcap2 : ¬ (u32sub q.max_entries q.fence_num = 0 ∨
            u32sub q.max_entries q.update_num < 2) := by omega
        simp [pvr_sync_query_sync_update, hsd, hk, hcap2]

theorem engine_step_createFence_tl (s : EngineState) (h : Nat) :
    (engine_step s (.createFence h)).1.timeline = s.timeline ∧
    (engine_step s (.createFence h)).2 = none := by
  rcases hh : s.handles[h]? with _ | (_ | a) <;>
    simp [engine_step, hh]

theorem engine_step_queryUpdate_tl (s : EngineState) (h : Nat) :
    (engine_step s (.queryUpdate h)).1.timeline.timeline_sync =
      s.timeline.timeline_sync ∧
    (engine_step s (.queryUpdate h)).2 = none := by
  rcases hh : s.handles[h]? with _ | (_ | a) <;>
    simp [engine_step, hh, query_update_tl_sync]

theorem engine_step_enableFencing_tl (s : EngineState) (b : Bool) :
    (engine_step s (.enableFencing b)).1.timeline.timeline_sync =
      s.timeline.timeline_sync ∧
    (engine_step s (.enableFencing b)).2 = none := ⟨rfl, rfl⟩

theorem engine_step_hwComplete_next (s : EngineState) (v : Nat) :
    (engine_step s (.hwComplete v)).1.timeline.timeline_sync.next_value =
      s.timeline.timeline_sync.next_value ∧
    (engine_step s (.hwComplete v)).2 = none := ⟨rfl, rfl⟩

theorem countNonIdle_cons (b : Bool) (l : List Bool) :
    countNonIdle (b :: l) = (if b then 0 else 1) + countNonIdle l := by
  cases b <;> simp [countNonIdle] <;> omega

theorem countNonIdle_nil : countNonIdle [] = 0 := rfl

/-- The invariant behind C5: over release-free operation sequences, the
timeline prim's `next_value` advances by exactly the number of non-idle
allocations, mod 2^32. -/
theorem engine_run_next_eq (ops : List TLOp) :
    ∀ s : EngineState,
    (∀ h, TLOp.allocRelease h ∉ ops) →
    s.timeline.timeline_sync.next_value < U32MOD →
    (engine_run s ops).1.timeline.timeline_sync.next_value =
      (s.timeline.timeline_sync.next_value +
        countNonIdle (engine_run s ops).2) % U32MOD := by
  induction ops with
  | nil =>
    intro s hno hlt
    simp [engine_run, countNonIdle, Nat.mod_eq_of_lt hlt]
  | cons op ops ih =>
    intro s hno hlt
    have hno' : ∀ h, TLOp.allocRelease h ∉ ops :=
      fun h hmem => hno h (List.mem_cons_of_mem op hmem)
    have hMpos : 0 < U32MOD := by unfold U32MOD; omega
    cases op with
    | alloc =>
      show (engine_run (engine_step s .alloc).1 ops).1.timeline.timeline_sync.next_value = _
      have hstep :
          (engine_step s .alloc).1.timeline.timeline_sync.next_value =
          if is_sync_met s.timeline.timeline_sync &&
              !s.timeline.fencing_enabled then
            s.timeline.timeline_sync.next_value
          else (s.timeline.timeline_sync.next_value + 1) % U32MOD :=
        alloc_fence_next s.timeline s.pool
      have hlt' :
          (engine_step s .alloc).1.timeline.timeline_sync.next_value <
            U32MOD := by
        rw [hstep]
        split_ifs
        · exact hlt
        · exact Nat.mod_lt _ hMpos
      have hih := ih (engine_step s .alloc).1 hno' hlt'
      have hflags : (engine_run s (.alloc :: ops)).2 =
          (engine_step s .alloc).2.elim [] (fun b => [b]) ++
            (engine_run (engine_step s .alloc).1 ops).2 := by
        simp [engine_run]
        cases hx : (engine_step s .alloc).2 <;> simp [hx]
      rw [hflags]
      have hout : (engine_step s .alloc).2 =
          some (is_sync_met s.timeline.timeline_sync &&
            !s.timeline.fencing_enabled) := by
        show some (pvr_sync_ioctl_alloc_fence s.timeline s.pool).bTimelineIdle = _
        rw [alloc_fence_idle_eq]
      rw [hout]
      simp only [Option.elim]
      rw [List.singleton_append, countNonIdle_cons, hih, hstep]
      split_ifs with hidle
      · unfold U32MOD at *
        omega
      · unfold U32MOD at *
        omega
    | allocRelease h =>
      exact absurd (List.mem_cons_self _ _) (fun hc => hno h hc)
    | createFence h =>
      obtain ⟨htl, hfl⟩ := engine_step_createFence_tl s h
      show (engine_run (engine_step s (.createFence h)).1 ops).1.timeline.timeline_sync.next_value = _
      have hih := ih (engine_step s (.createFence h)).1
        hno' (by rw [htl]; exact hlt)
      rw [hih, htl]
      have hflags : (engine_run s (.createFence h :: ops)).2 =
          (engine_run (engine_step s (.createFence h)).1 ops).2 := by
        simp [engine_run, hfl]
      rw [hflags]
    | queryUpdate h =>
      obtain ⟨htl, hfl⟩ := engine_step_queryUpdate_tl s h
      show (engine_run (engine_step s (.queryUpdate h)).1 ops).1.timeline.timeline_sync.next_value = _
      have hih := ih (engine_step s (.queryUpdate h)).1
        hno' (by rw [htl]; exact hlt)
      rw [hih, htl]
      have hflags : (engine_run s (.queryUpdate h :: ops)).2 =
          (engine_run (engine_step s (.queryUpdate h)).1 ops).2 := by
        simp [engine_run, hfl]
      rw [hflags]
    | enableFencing b =>
      obtain ⟨htl, hfl⟩ := engine_step_enableFencing_tl s b
      show (engine_run (engine_step s (.enableFencing b)).1 ops).1.timeline.timeline_sync.next_value = _
      have hih := ih (engine_step s (.enableFencing b)).1
        hno' (by rw [htl]; exact hlt)
      rw [hih, htl]
      have hflags : (engine_run s (.enableFencing b :: ops)).2 =
          (engine_run (engine_step s (.enableFencing b)).1 ops).2 := by
        simp [engine_run, hfl]
      rw [hflags]
    | hwComplete v =>
      obtain ⟨htl, hfl⟩ := engine_step_hwComplete_next s v
      show (engine_run (engine_step s (.hwComplete v)).1 ops).1.timeline.timeline_sync.next_value = _
      have hih := ih (engine_step s (.hwComplete v)).1
        hno' (by rw [htl]; exact hlt)
      rw [hih, htl]
      have hflags : (engine_run s (.hwComplete v :: ops)).2 =
          (engine_run (engine_step s (.hwComplete v)).1 ops).2 := by
        simp [engine_run, hfl]
      rw [hflags]

theorem engine_run_append (ops1 ops2 : List TLOp) :
    ∀ s : EngineState,
    engine_run s (ops1 ++ ops2) =
      ((engine_run (engine_run s ops1).1 ops2).1,
       (engine_run s ops1).2 ++ (engine_run (engine_run s ops1).1 ops2).2) := by
  induction ops1 with
  | nil => intro s; simp [engine_run]
  | cons op ops1 ih =>
    intro s
    simp [engine_run, ih (engine_step s op).1, List.append_assoc]

theorem countNonIdle_append (l1 l2 : List Bool) :
    countNonIdle (l1 ++ l2) = countNonIdle l1 + countNonIdle l2 := by
  simp [countNonIdle, List.filter_append]

theorem engine_step_handles_other (s : EngineState) (op : TLOp) (h : Nat)
    (halloc : op ≠ .alloc) (hcf : op ≠ .createFence h)
    (hqu : op ≠ .queryUpdate h) (har : op ≠ .allocRelease h) :
    (engine_step s op).1.handles[h]? = s.handles[h]? := by
  cases op with
  | alloc => exact absurd rfl halloc
  | allocRelease h' =>
    have hne : h' ≠ h := fun he => har (by rw [he])
    rcases hh : s.handles[h']? with _ | (_ | a) <;>
      simp [engine_step, hh, List.getElem?_set_ne hne]
  | createFence h' =>
    have hne : h' ≠ h := fun he => hcf (by rw [he])
    rcases hh : s.handles[h']? with _ | (_ | a) <;>
      simp [engine_step, hh, List.getElem?_set_ne hne]
  | queryUpdate h' =>
    have hne : h' ≠ h := fun he => hqu (by rw [he])
    rcases hh : s.handles[h']? with _ | (_ | a) <;>
      simp [engine_step, hh, List.getElem?_set_ne hne]
  | enableFencing b => rfl
  | hwComplete v => rfl

theorem engine_run_handles_other (ops : List TLOp) :
    ∀ (s : EngineState) (h : Nat),
    TLOp.alloc ∉ ops → TLOp.createFence h ∉ ops →
    TLOp.queryUpdate h ∉ ops → TLOp.allocRelease h ∉ ops →
    (engine_run s ops).1.handles[h]? = s.handles[h]? := by
  induction ops with
  | nil => intro s h _ _ _ _; rfl
  | cons op ops ih =>
    intro s h ha hc hq hr
    rw [List.mem_cons, not_or] at ha hc hq hr
    show (engine_run (engine_step s op).1 ops).1.handles[h]? = _
    rw [ih (engine_step s op).1 h ha.2 hc.2 hq.2 hr.2]
    exact engine_step_handles_other s op h
      (fun he => ha.1 he.symm) (fun he => hc.1 he.symm)
      (fun he => hq.1 he.symm) (fun he => hr.1 he.symm)

/-- Counterexample to C5 as stated: on a fresh timeline (fencing enabled,
so the first allocation is non-idle), allocating and then releasing the
unused handle first raises the timeline prim's `next_value` to 1 and then
rolls it back to 0, while the number of non-idle allocations is 1 — so
`next_value` is neither non-decreasing over the timeline's lifetime nor
equal to the non-idle allocation count once a rollback has happened. -/
theorem C5_counterexample :
    (engine_run (engineInit "t") [TLOp.alloc]).1.timeline.timeline_sync.next_value = 1 ∧
    (engine_run (engineInit "t")
      [TLOp.alloc, TLOp.allocRelease 0]).1.timeline.timeline_sync.next_value = 0 ∧
    countNonIdle (engine_run (engineInit "t")
      [TLOp.alloc, TLOp.allocRelease 0]).2 = 1 := by
  refine ⟨rfl, rfl, rfl⟩

/-- C5 (amended): over any operation sequence that contains no
unused-handle release (the rollback of C6), the timeline prim's
`next_value` equals the number of non-idle allocations since the
timeline was opened, mod 2^32; consequently, as long as that count stays
below 2^32, `next_value` is non-decreasing along the sequence.  A
release of an unused alloc handle is the one operation that can lower
`next_value` (it restores the handle's recorded baseline). -/
theorem C5_timeline_next_amended (name : String) (ops : List TLOp)
    (hno : ∀ h, TLOp.allocRelease h ∉ ops) :
    (engine_run (engineInit name) ops).1.timeline.timeline_sync.next_value =
      countNonIdle (engine_run (engineInit name) ops).2 % U32MOD ∧
    (countNonIdle (engine_run (engineInit name) ops).2 < U32MOD →
      ∀ pre suf, ops = pre ++ suf →
        (engine_run (engineInit name) pre).1.timeline.timeline_sync.next_value ≤
        (engine_run (engineInit name) ops).1.timeline.timeline_sync.next_value) := by
  have h0 : (engineInit name).timeline.timeline_sync.next_value = 0 := rfl
  have hM : (engineInit name).timeline.timeline_sync.next_value < U32MOD := by
    rw [h0]; unfold U32MOD; omega
  have hmain := engine_run_next_eq ops (engineInit name) hno hM
  rw [h0, Nat.zero_add] at hmain
  refine ⟨hmain, fun hcnt pre suf heq => ?_⟩
  have hno_pre : ∀ h, TLOp.allocRelease h ∉ pre := by
    intro h hmem
    exact hno h (heq ▸ List.mem_append_left suf hmem)
  have hpre := engine_run_next_eq pre (engineInit name) hno_pre hM
  rw [h0, Nat.zero_add] at hpre
  have hsplit := engine_run_append pre suf (engineInit name)
  rw [← heq] at hsplit
  have hflags : (engine_run (engineInit name) ops).2 =
      (engine_run (engineInit name) pre).2 ++
      (engine_run (engine_run (engineInit name) pre).1 suf).2 := by
    rw [hsplit]
  have hcount : countNonIdle (engine_run (engineInit name) ops).2 =
      countNonIdle (engine_run (engineInit name) pre).2 +
      countNonIdle (engine_run (engine_run (engineInit name) pre).1 suf).2 := by
    rw [hflags, countNonIdle_append]
  rw [hmain, hpre]
  rw [Nat.mod_eq_of_lt hcnt, Nat.mod_eq_of_lt (by omega)]
  omega

/-- Witness for C5's amended theorem: a concrete release-free history
(two allocations, the second after enabling fencing). -/
theorem C5_timeline_next_amended_witness :
    (engine_run (engineInit "t")
      [TLOp.alloc, TLOp.enableFencing true,
       TLOp.alloc]).1.timeline.timeline_sync.next_value =
      countNonIdle (engine_run (engineInit "t")
        [TLOp.alloc, TLOp.enableFencing true, TLOp.alloc]).2 % U32MOD :=
  (C5_timeline_next_amended "t"
    [TLOp.alloc, TLOp.enableFencing true, TLOp.alloc]
    (fun h => by simp)).1

/-- C6: an alloc handle released without create (and never advanced by
an update query, so its fence prim's `next_value` is still 0), with no
other allocation on the timeline in between, rolls the timeline prim's
`next_value` back to the handle's recorded `timeline_fence_value`, i.e.
restores the timeline's pre-allocation value. -/
theorem C6_release_unused_rollback (s : EngineState) (mid : List TLOp)
    (hm_alloc : TLOp.alloc ∉ mid)
    (hm_cf : TLOp.createFence s.handles.length ∉ mid)
    (hm_qu : TLOp.queryUpdate s.handles.length ∉ mid)
    (hm_ar : TLOp.allocRelease s.handles.length ∉ mid) :
    (engine_step (engine_run (engine_step s .alloc).1 mid).1
      (.allocRelease s.handles.length)).1.timeline.timeline_sync.next_value =
      s.timeline.timeline_sync.next_value := by
  have had : ∃ sd,
      (pvr_sync_ioctl_alloc_fence s.timeline s.pool).alloc_data.sync_data =
        some sd ∧
      sd.timeline_fence_value = s.timeline.timeline_sync.next_value ∧
      ∃ kp, sd.kernel = some kp ∧ kp.fence_sync.next_value = 0 :=
    ⟨_, rfl, rfl, _, rfl, sync_pool_get_next_value _ _ _⟩
  obtain ⟨sd, hsd, htfv, kp, hkp, hnv⟩ := had
  have h1 : (engine_step s .alloc).1.handles[s.handles.length]? =
      some (some (pvr_sync_ioctl_alloc_fence s.timeline s.pool).alloc_data) := by
    show (s.handles ++ [some _])[s.handles.length]? = _
    exact List.getElem?_concat_length _ _
  have h2 : (engine_run (engine_step s .alloc).1 mid).1.handles[s.handles.length]? =
      some (some (pvr_sync_ioctl_alloc_fence s.timeline s.pool).alloc_data) := by
    rw [engine_run_handles_other mid (engine_step s .alloc).1
      s.handles.length hm_alloc hm_cf hm_qu hm_ar]
    exact h1
  generalize hgen : (engine_run (engine_step s .alloc).1 mid).1 = s2 at h2 ⊢
  simp only [engine_step, h2]
  simp only [pvr_sync_alloc_release, hsd, hkp, hnv]
  simp [htfv]

/-- Witness for C6: on a fresh timeline, alloc followed (after an
unrelated enable-fencing call) by release of the unused handle restores
the timeline prim's `next_value` to its pre-allocation value. -/
theorem C6_release_unused_rollback_witness :
    (engine_step (engine_run (engine_step (engineInit "t") .alloc).1
      [TLOp.enableFencing true]).1
      (.allocRelease (engineInit "t").handles.length)).1.timeline.timeline_sync.next_value =
      (engineInit "t").timeline.timeline_sync.next_value :=
  C6_release_unused_rollback (engineInit "t") [TLOp.enableFencing true]
    (by simp) (by simp) (by simp) (by simp)
